import Mathlib

/-!
Shallow embedding of the task-scheduling and sync core of the
Billy-TheTaskManger repository (src/hooks/useTasks.ts,
src/components/CalendarView.tsx, src/lib/googleCalendar.ts).

Modelling conventions:
* Machine strings stay `String`; optional TS fields (`string | undefined`)
  become `Option String`, and the JS falsy coercions written in the source
  (`x || d`, `x || null`, `x || undefined`) are modelled explicitly,
  including the fact that the empty string and the number 0 are falsy.
* Timestamps (`Date` values) are modelled as integers (epoch instants);
  `Date.prototype.toISOString` is injective on instants, so it is the
  identity in the model.
* `JSON.stringify` of a fixed-key record is injective in the (normalized)
  field values, so the fingerprint produced by `hashTask` is modelled as
  the record of normalized fields itself, compared by decidable equality.
* React state updates become pure functions on an explicit `SyncState`.
-/

namespace TaskManager

/-- Priority field of a task: low, medium or high. -/
inductive Priority where
  | low | medium | high
deriving DecidableEq, Repr

/-- Status field of a task: pending, in-progress or completed. -/
inductive Status where
  | pending | inProgress | completed
deriving DecidableEq, Repr

/-- Modelled from the spec: the Task entity (src/types.ts is not part of
the provided sources; field names and optionality follow the spec data
model section and the uses in useTasks.ts). -/
structure Task where
  id : String
  title : String
  description : Option String
  timeEstimate : Int
  priority : Priority
  status : Status
  createdAt : Int
  scheduledDate : Option String
  scheduledTime : Option String
  tags : List String
deriving DecidableEq, Repr

/-- JS `o || d` on an optional string: `undefined` and the empty string
are falsy and give the default. -/
def jsOr (o : Option String) (d : String) : String :=
  match o with
  | none => d
  | some s => if s = "" then d else s

/-- JS `o || null` (equally `o || undefined`) on an optional string:
`undefined`, `null` and the empty string collapse to `none`. -/
def jsOrNull (o : Option String) : Option String :=
  match o with
  | none => none
  | some s => if s = "" then none else some s

/-- JS `o || d` on an optional number: `undefined`, `null` and 0 are falsy
and give the default. -/
def jsOrNum (o : Option Int) (d : Int) : Int :=
  match o with
  | none => d
  | some n => if n = 0 then d else n

/-- Value of the stable fingerprint produced by `hashTask`
(useTasks.ts lines 56-70): a fixed-key record serialized by
`JSON.stringify`; serialization is injective in these normalized fields,
so the record itself stands for the JSON string. -/
structure Fingerprint where
  id : String
  title : String
  description : String
  timeEstimate : Int
  priority : Priority
  status : Status
  createdAt : Int
  scheduledDate : Option String
  scheduledTime : Option String
  tags : List String
deriving DecidableEq, Repr

/-- Embedding of `hashTask` (useTasks.ts lines 56-70): stable JSON of the
remotely persisted fields, in fixed order, with the JS falsy coercions
`t.description || ''`, `t.scheduledDate || null`, `t.scheduledTime || null`
written in the source. `t.tags || []` is the identity because `tags` is a
present array on every task. -/
def hashTask (t : Task) : Fingerprint :=
  { id := t.id
    title := t.title
    description := jsOr t.description ""
    timeEstimate := t.timeEstimate
    priority := t.priority
    status := t.status
    createdAt := t.createdAt
    scheduledDate := jsOrNull t.scheduledDate
    scheduledTime := jsOrNull t.scheduledTime
    tags := t.tags }

/-- Embedding of the day-column filter (useTasks.ts line 47):
`tasks.filter(task => task.scheduledDate === dateString)`. -/
def byDay (tasks : List Task) (dateString : String) : List Task :=
  tasks.filter (fun t => t.scheduledDate == some dateString)

/-- Embedding of the state update inside `moveTask`
(useTasks.ts lines 206-215): find the target by id; if absent return the
collection unchanged; otherwise set the two scheduling fields, remove the
original and append the updated task at the end. -/
def moveTask (prev : List Task) (taskId : String)
    (scheduledDate scheduledTime : Option String) : List Task :=
  match prev.find? (fun t => t.id == taskId) with
  | none => prev
  | some target =>
    let updated : Task :=
      { target with scheduledDate := scheduledDate, scheduledTime := scheduledTime }
    let remaining := prev.filter (fun t => !(t.id == taskId))
    remaining ++ [updated]

/-- Row shape of the remote `tasks` table (snake_case fields, any of which
may be null except the id); used by the sync paths of useTasks.ts. -/
structure Row where
  id : String
  title : String
  description : Option String
  time_estimate : Option Int
  priority : Option Priority
  status : Option Status
  created_at : Option Int
  scheduled_date : Option String
  scheduled_time : Option String
  tags : Option (List String)
deriving DecidableEq, Repr

/-- Embedding of the full row built by `moveTask` for the remote upsert
(useTasks.ts lines 220-231), from the merged task. -/
def taskToRow (t : Task) : Row :=
  { id := t.id
    title := t.title
    description := some (jsOr t.description "")
    time_estimate := some t.timeEstimate
    priority := some t.priority
    status := some t.status
    created_at := some t.createdAt
    scheduled_date := t.scheduledDate
    scheduled_time := t.scheduledTime
    tags := some t.tags }

/-- Embedding of the remote half of `moveTask` (useTasks.ts lines
216-234): an upsert row is produced only when the id is found in the
current collection. -/
def moveTaskUpsert (tasks : List Task) (taskId : String)
    (scheduledDate scheduledTime : Option String) : Option Row :=
  (tasks.find? (fun t => t.id == taskId)).map (fun t =>
    taskToRow { t with scheduledDate := scheduledDate, scheduledTime := scheduledTime })

/-- Embedding of the row-to-Task mapping used by the initial fetch
(useTasks.ts lines 349-360), `resetFromCloud` (lines 260-271) and the
realtime handler (lines 376-387). The `now` parameter stands for the
`new Date()` fallback taken when `created_at` is absent. -/
def mapRow (now : Int) (r : Row) : Task :=
  { id := r.id
    title := r.title
    description := some (jsOr r.description "")
    timeEstimate := jsOrNum r.time_estimate 30
    priority := r.priority.getD Priority.medium
    status := r.status.getD Status.pending
    createdAt := r.created_at.getD now
    scheduledDate := jsOrNull r.scheduled_date
    scheduledTime := jsOrNull r.scheduled_time
    tags := r.tags.getD [] }

/-- Combined mutable state of the hook relevant to sync: the task
collection (`tasks` state), the `lastSyncedHashesRef` record, the
`pendingDeletionIdsRef` set, and the `suppressNextUpsertRef` flag. -/
structure SyncState where
  tasks : List Task
  lastSyncedHashes : List (String × Fingerprint)
  pendingDeletionIds : List String
  suppressNextUpsert : Bool
deriving DecidableEq, Repr

/-- Record assignment `hashes[k] = v` on the association-list model of a
JS record. -/
def setKey (hs : List (String × Fingerprint)) (k : String) (v : Fingerprint) :
    List (String × Fingerprint) :=
  hs.filter (fun p => !(p.1 == k)) ++ [(k, v)]

/-- Record deletion `delete hashes[k]` on the association-list model. -/
def eraseKey (hs : List (String × Fingerprint)) (k : String) :
    List (String × Fingerprint) :=
  hs.filter (fun p => !(p.1 == k))

/-- Embedding of the diff detection of the persistence effect
(useTasks.ts lines 294-311): the tasks whose current fingerprint differs
from (or is absent in) the last-synced record. -/
def changedTasks (tasks : List Task) (hashes : List (String × Fingerprint)) :
    List Task :=
  tasks.filter (fun t => !(hashes.lookup t.id == some (hashTask t)))

/-- Fingerprint advancement after a successful bulk upsert
(useTasks.ts lines 318-320): every current task gets its fingerprint
recorded. -/
def advanceHashes (tasks : List Task) (hashes : List (String × Fingerprint)) :
    List (String × Fingerprint) :=
  tasks.foldl (fun hs t => setKey hs t.id (hashTask t)) hashes

/-- Embedding of the upsert half of `performSync` (useTasks.ts lines
314-322): the upsert runs only when `changed` is non-empty, and the
fingerprints advance only when it reports no error. `upsertErr` is the
outcome the remote call would report. -/
def upsertStep (tasks : List Task) (hashes : List (String × Fingerprint))
    (changed : List Task) (upsertErr : Bool) : List (String × Fingerprint) :=
  if changed.isEmpty then hashes
  else if upsertErr then hashes
  else advanceHashes tasks hashes

/-- Embedding of the delete half of `performSync` (useTasks.ts lines
323-332): the delete runs only when `pendingDeletes` is non-empty, and
pending ids are cleared and their fingerprints erased only when it
reports no error. -/
def deleteStep (pendingDeletes : List String)
    (hashes : List (String × Fingerprint)) (pending : List String)
    (deleteErr : Bool) : List (String × Fingerprint) × List String :=
  if pendingDeletes.isEmpty then (hashes, pending)
  else if deleteErr then (hashes, pending)
  else
    (pendingDeletes.foldl (fun hs i => eraseKey hs i) hashes,
     pending.filter (fun i => !(pendingDeletes.contains i)))

/-- Embedding of `performSync` (useTasks.ts lines 312-334): diff the
current tasks, snapshot the pending deletions, run the upsert step and
then the delete step; returns the resulting (fingerprint record,
pending-deletion set) pair. -/
def performSync (tasks : List Task) (hashes : List (String × Fingerprint))
    (pending : List String) (upsertErr deleteErr : Bool) :
    List (String × Fingerprint) × List String :=
  let changed := changedTasks tasks hashes
  let pendingDeletes := pending
  let h1 := upsertStep tasks hashes changed upsertErr
  deleteStep pendingDeletes h1 pending deleteErr

/-- Embedding of the initial fetch effect (useTasks.ts lines 344-364):
`result = none` models an unreachable store (fetch error, null data);
`result = some rows` models a successful select of `rows`, possibly
empty. On success the whole collection is replaced by the mapped rows
and the suppress flag is set; the fingerprint record and pending set are
not touched. -/
def applyInitialFetch (now : Int) (s : SyncState) (result : Option (List Row)) :
    SyncState :=
  match result with
  | none => s
  | some rows =>
    { s with tasks := rows.map (mapRow now), suppressNextUpsert := true }

/-- Event kinds delivered by the realtime feed. -/
inductive EventType where
  | INSERT | UPDATE | DELETE
deriving DecidableEq, Repr

/-- Embedding of the realtime subscription handler (useTasks.ts lines
367-404). For DELETE the task is removed and its trackers cleared; for
INSERT and UPDATE the row is mapped to a Task, a fingerprint-identical
existing task makes the event a no-op, otherwise the task is merged
(`{ ...t, ...task }` replaces every field because `task` is fully
populated) or appended, with the suppress flag set and the fingerprint
recorded. -/
def applyRealtime (now : Int) (s : SyncState) (eventType : EventType)
    (r : Row) : SyncState :=
  if eventType == EventType.DELETE then
    { tasks := s.tasks.filter (fun t => !(t.id == r.id))
      lastSyncedHashes := eraseKey s.lastSyncedHashes r.id
      pendingDeletionIds := s.pendingDeletionIds.filter (fun i => !(i == r.id))
      suppressNextUpsert := true }
  else
    let task := mapRow now r
    let remoteHash := hashTask task
    match s.tasks.find? (fun t => t.id == task.id) with
    | some existing =>
      if hashTask existing == remoteHash then s
      else
        { tasks := s.tasks.map (fun t => if t.id == task.id then task else t)
          lastSyncedHashes := setKey s.lastSyncedHashes task.id remoteHash
          pendingDeletionIds := s.pendingDeletionIds
          suppressNextUpsert := true }
    | none =>
      { tasks := s.tasks ++ [task]
        lastSyncedHashes := setKey s.lastSyncedHashes task.id remoteHash
        pendingDeletionIds := s.pendingDeletionIds
        suppressNextUpsert := true }

/-- Two-digit zero padding, `n.toString().padStart(2, '0')`
(CalendarView.tsx line 201). -/
def pad2 (n : Nat) : String :=
  if n < 10 then "0" ++ toString n else toString n

/-- Embedding of the `timeSlots` generator (CalendarView.tsx lines
198-202): slot `i` of the 48 half-hour slots renders as `HH:MM`. -/
def timeSlot (i : Nat) : String :=
  pad2 (i / 2) ++ ":" ++ (if i % 2 == 0 then "00" else "30")

/-- JS `parseInt` on a digit-initial string: value of the leading digit
run, accumulated left to right (character-level model). -/
def parseIntAux : List Char → Nat → Nat
  | [], acc => acc
  | c :: cs, acc => if c.isDigit then parseIntAux cs (acc * 10 + (c.toNat - 48)) else acc

/-- JS `parseInt(time.split(':')[0])` (CalendarView.tsx line 43), with
`split` modelled on the character sequence. -/
def startHourOf (time : String) : Nat :=
  parseIntAux ((time.data.splitOn ':').headD []) 0

/-- JS `parseInt(time.split(':')[1])` (CalendarView.tsx line 44). -/
def startMinuteOf (time : String) : Nat :=
  parseIntAux (((time.data.splitOn ':').drop 1).headD []) 0

/-- Embedding of the slot-index recomputation in `TaskBlock`
(CalendarView.tsx line 45): `startHour * 2 + (startMinute >= 30 ? 1 : 0)`. -/
def startIndexOf (time : String) : Nat :=
  startHourOf time * 2 + (if startMinuteOf time >= 30 then 1 else 0)

/-- Dates are modelled as epoch-day integers: `addDays(weekStart, i)` is
addition, and formatting a day as yyyy-MM-dd is injective, so the
seven day-column ids of `weekDays` (useTasks.ts lines 38-49) are the
seven integers starting at the week start. -/
def weekDates (weekStart : Int) : List Int :=
  (List.range 7).map (fun (i : Nat) => weekStart + (i : Int))

/-- Inverse day lookup: position of a date among the id values of the
seven rendered day columns, as in `days.findIndex(d => d.id === todayId)`
(CalendarView.tsx line 284). -/
def dayIndexOf (weekStart : Int) (date : Int) : Option Nat :=
  (weekDates weekStart).findIdx? (fun d => d == date)

/-- JS `Math.round(num / den)` for integer inputs: rounds half toward
positive infinity, that is floor of `num / den + 1 / 2`. -/
def jsRound (num den : Int) : Int :=
  Int.fdiv (2 * num + den) (2 * den)

/-- Embedding of the duration computation in `handleResizeMove`
(CalendarView.tsx lines 61-67): `slotsDelta = Math.round(deltaY /
slotHeight)` and `newMinutes = Math.max(30, original + slotsDelta * 30)`. -/
def handleResizeMove (originalMinutes deltaY slotHeight : Int) : Int :=
  max 30 (originalMinutes + jsRound deltaY slotHeight * 30)

/-- Specification formula for the resize semantics, written from the
spec: `max(slotMinutes, originalMinutes + slotDelta * slotMinutes)`. -/
def specResizeDuration (slotMinutes originalMinutes slotDelta : Int) : Int :=
  max slotMinutes (originalMinutes + slotDelta * slotMinutes)

/-- Normalized calendar event shape returned by the import collaborator
(googleCalendar.ts lines 13-21). -/
structure NormalizedGCalEvent where
  id : String
  title : String
  description : String
  date : String
  time : Option String
  minutes : Int
  allDay : Bool
deriving DecidableEq, Repr

/-- Dedup tag attached to an imported event (useTasks.ts line 165). -/
def gcalTag (e : NormalizedGCalEvent) : String :=
  "gcal:" ++ e.id

/-- JS `s.startsWith(p)`: character-sequence prefix test. -/
def jsStartsWith (s p : String) : Bool :=
  p.data.isPrefixOf s.data

/-- Embedding of the `existingByTag` set construction (useTasks.ts lines
157-162): every tag of every existing task that begins with `gcal:`. -/
def existingGcalTags (prev : List Task) : List String :=
  (prev.map (fun t => t.tags.filter (fun tag => jsStartsWith tag "gcal:"))).flatten

/-- Task built for one imported event (useTasks.ts lines 167-178);
`fresh k` stands for the k-th `uuidv4()` call and `now` for `new Date()`. -/
def mkImportTask (fresh : Nat → String) (now : Int) (k : Nat)
    (e : NormalizedGCalEvent) : Task :=
  { id := fresh k
    title := e.title
    description := some e.description
    timeEstimate := e.minutes
    priority := Priority.medium
    status := Status.pending
    createdAt := now
    scheduledDate := some e.date
    scheduledTime := e.time
    tags := [gcalTag e, "calendar"] }

/-- Additions loop of the import (useTasks.ts lines 163-179): events whose
tag is already present are skipped; the rest become new tasks, in event
order. The tag set is fixed before the loop and not extended during it. -/
def importAdditions (fresh : Nat → String) (now : Int)
    (existingTags : List String) : Nat → List NormalizedGCalEvent → List Task
  | _, [] => []
  | k, e :: es =>
    if existingTags.contains (gcalTag e) then
      importAdditions fresh now existingTags k es
    else
      mkImportTask fresh now k e :: importAdditions fresh now existingTags (k + 1) es

/-- Embedding of the state update of `importGoogleCalendarForRange`
(useTasks.ts lines 153-199): compute the additions against the tags
present in `prev`; if none, return `prev` unchanged, else append them. -/
def importGoogleCalendarForRange (fresh : Nat → String) (now : Int)
    (prev : List Task) (events : List NormalizedGCalEvent) : List Task :=
  let adds := importAdditions fresh now (existingGcalTags prev) 0 events
  if adds.isEmpty then prev else prev ++ adds

/-! ## Theorems -/

/-- Helper: `jsRound` agrees with rounding the exact rational quotient to
the nearest integer (halves up), for a positive denominator. -/
theorem jsRound_eq_round (num den : Int) (hden : 0 < den) :
    jsRound num den = round ((num : ℚ) / (den : ℚ)) := by
  have hden2 : (0:Int) ≤ 2 * den := by omega
  have hq : ((num : ℚ) / (den : ℚ) + 1 / 2) =
      ((2 * num + den : Int) : ℚ) / (((2 * den).toNat : ℕ) : ℚ) := by
    have h1 : ((den : ℚ)) ≠ 0 := by
      exact_mod_cast (by omega : (den : Int) ≠ 0)
    have h2 : (((2 * den).toNat : ℕ) : ℚ) = ((2 * den : Int) : ℚ) := by
      exact_mod_cast congrArg (fun z : Int => (z : ℚ)) (Int.toNat_of_nonneg hden2)
    rw [h2]
    push_cast
    field_simp
    ring
  rw [round_eq, hq, Rat.floor_intCast_div_natCast]
  rw [Int.toNat_of_nonneg hden2]
  unfold jsRound
  exact Int.fdiv_eq_ediv _ (by omega)

/-- C6: for every original duration and every pixel delta, the resize
computation `handleResizeMove` yields exactly the spec formula
`max(slotMinutes, originalMinutes + slotDelta * slotMinutes)` with
`slotDelta = round(deltaY / slotHeight)`, and the result is never below
30 minutes, one slot. -/
theorem resize_floor (originalMinutes deltaY slotHeight : Int) :
    30 ≤ handleResizeMove originalMinutes deltaY slotHeight ∧
    handleResizeMove originalMinutes deltaY slotHeight =
      specResizeDuration 30 originalMinutes (jsRound deltaY slotHeight) :=
  ⟨le_max_left _ _, rfl⟩

/-- C4: when a task with the given id exists, `moveTask` produces the
collection of all other tasks followed by the target updated to carry
exactly the requested `scheduledDate` and `scheduledTime` (both `none`
clears both), every other field of the target unchanged and every other
task untouched. -/
theorem moveTask_sets_schedule_fields (tasks : List Task) (taskId : String)
    (d t : Option String) (target : Task)
    (hfind : tasks.find? (fun tk => tk.id == taskId) = some target) :
    moveTask tasks taskId d t =
      tasks.filter (fun tk => !(tk.id == taskId)) ++
        [{ target with scheduledDate := d, scheduledTime := t }] ∧
    ({ target with scheduledDate := d, scheduledTime := t } : Task).scheduledDate = d ∧
    ({ target with scheduledDate := d, scheduledTime := t } : Task).scheduledTime = t ∧
    ({ target with scheduledDate := d, scheduledTime := t } : Task).id = target.id ∧
    ({ target with scheduledDate := d, scheduledTime := t } : Task).title = target.title ∧
    ({ target with scheduledDate := d, scheduledTime := t } : Task).description = target.description ∧
    ({ target with scheduledDate := d, scheduledTime := t } : Task).timeEstimate = target.timeEstimate ∧
    ({ target with scheduledDate := d, scheduledTime := t } : Task).priority = target.priority ∧
    ({ target with scheduledDate := d, scheduledTime := t } : Task).status = target.status ∧
    ({ target with scheduledDate := d, scheduledTime := t } : Task).createdAt = target.createdAt ∧
    ({ target with scheduledDate := d, scheduledTime := t } : Task).tags = target.tags := by
  refine ⟨?_, rfl, rfl, rfl, rfl, rfl, rfl, rfl, rfl, rfl, rfl⟩
  unfold moveTask
  rw [hfind]

/-- Witness for C4 at a concrete collection of two tasks. -/
theorem moveTask_sets_schedule_fields_witness :
    moveTask
      [⟨"a", "A", none, 30, Priority.medium, Status.pending, 0, none, none, []⟩,
       ⟨"b", "B", none, 45, Priority.high, Status.pending, 1, some "2024-06-02", some "08:00", []⟩]
      "a" (some "2024-06-03") (some "09:00") =
      [⟨"b", "B", none, 45, Priority.high, Status.pending, 1, some "2024-06-02", some "08:00", []⟩,
       ⟨"a", "A", none, 30, Priority.medium, Status.pending, 0, some "2024-06-03", some "09:00", []⟩] := by
  have h := moveTask_sets_schedule_fields
    [⟨"a", "A", none, 30, Priority.medium, Status.pending, 0, none, none, []⟩,
     ⟨"b", "B", none, 45, Priority.high, Status.pending, 1, some "2024-06-02", some "08:00", []⟩]
    "a" (some "2024-06-03") (some "09:00")
    ⟨"a", "A", none, 30, Priority.medium, Status.pending, 0, none, none, []⟩
    (by decide)
  rw [h.1]
  decide

/-- C5: when the task exists, `moveTask` relocates it to the end of the
iteration order: the result is the remaining tasks, a sublist of the
original collection in original relative order, with the updated task
appended; consequently the day column of the target date shows it after
every previously present same-day task. -/
theorem moveTask_appends_to_end (tasks : List Task) (taskId : String)
    (d t : Option String) (target : Task)
    (hfind : tasks.find? (fun tk => tk.id == taskId) = some target) :
    moveTask tasks taskId d t =
      tasks.filter (fun tk => !(tk.id == taskId)) ++
        [{ target with scheduledDate := d, scheduledTime := t }] ∧
    (tasks.filter (fun tk => !(tk.id == taskId))).Sublist tasks ∧
    (∀ date : String, d = some date →
      byDay (moveTask tasks taskId d t) date =
        byDay (tasks.filter (fun tk => !(tk.id == taskId))) date ++
          [{ target with scheduledDate := d, scheduledTime := t }]) := by
  have hmove : moveTask tasks taskId d t =
      tasks.filter (fun tk => !(tk.id == taskId)) ++
        [{ target with scheduledDate := d, scheduledTime := t }] := by
    unfold moveTask
    rw [hfind]
  refine ⟨hmove, List.filter_sublist tasks, ?_⟩
  intro date hdate
  subst hdate
  rw [hmove]
  unfold byDay
  rw [List.filter_append]
  simp

/-- Witness for C5: moving task `a` onto a date already holding task `b`
places it after `b` in the day column. -/
theorem moveTask_appends_to_end_witness :
    byDay
      (moveTask
        [⟨"a", "A", none, 30, Priority.medium, Status.pending, 0, none, none, []⟩,
         ⟨"b", "B", none, 45, Priority.high, Status.pending, 1, some "2024-06-03", some "08:00", []⟩]
        "a" (some "2024-06-03") (some "09:00")) "2024-06-03" =
      [⟨"b", "B", none, 45, Priority.high, Status.pending, 1, some "2024-06-03", some "08:00", []⟩,
       ⟨"a", "A", none, 30, Priority.medium, Status.pending, 0, some "2024-06-03", some "09:00", []⟩] := by
  have h := moveTask_appends_to_end
    [⟨"a", "A", none, 30, Priority.medium, Status.pending, 0, none, none, []⟩,
     ⟨"b", "B", none, 45, Priority.high, Status.pending, 1, some "2024-06-03", some "08:00", []⟩]
    "a" (some "2024-06-03") (some "09:00")
    ⟨"a", "A", none, 30, Priority.medium, Status.pending, 0, none, none, []⟩
    (by decide)
  rw [h.2.2 "2024-06-03" rfl]
  decide

/-- C10: when no task has the given id, `moveTask` returns the collection
unchanged, same tasks in the same order, and produces no remote upsert
row. -/
theorem moveTask_missing_id_noop (tasks : List Task) (taskId : String)
    (d t : Option String)
    (hfind : tasks.find? (fun tk => tk.id == taskId) = none) :
    moveTask tasks taskId d t = tasks ∧
    moveTaskUpsert tasks taskId d t = none := by
  constructor
  · unfold moveTask
    rw [hfind]
  · unfold moveTaskUpsert
    rw [hfind]
    rfl

/-- Witness for C10 at a concrete collection and an absent id. -/
theorem moveTask_missing_id_noop_witness :
    moveTask
      [⟨"a", "A", none, 30, Priority.medium, Status.pending, 0, none, none, []⟩]
      "zzz" (some "2024-06-03") (some "09:00") =
      [⟨"a", "A", none, 30, Priority.medium, Status.pending, 0, none, none, []⟩] ∧
    moveTaskUpsert
      [⟨"a", "A", none, 30, Priority.medium, Status.pending, 0, none, none, []⟩]
      "zzz" (some "2024-06-03") (some "09:00") = none :=
  moveTask_missing_id_noop
    [⟨"a", "A", none, 30, Priority.medium, Status.pending, 0, none, none, []⟩]
    "zzz" (some "2024-06-03") (some "09:00") (by decide)

/-- C3: a failed outbound push leaves the change-tracking state intact:
with an erroring upsert no fingerprint is advanced, with an erroring
delete no pending id is cleared and no fingerprint erased, and when both
calls error the whole (fingerprints, pending) pair is unchanged, so the
diff recomputed on the next mutation cycle is the same changed set. -/
theorem performSync_error_leaves_tracking (tasks : List Task)
    (hashes : List (String × Fingerprint)) (pending : List String) :
    upsertStep tasks hashes (changedTasks tasks hashes) true = hashes ∧
    deleteStep pending hashes pending true = (hashes, pending) ∧
    performSync tasks hashes pending true true = (hashes, pending) ∧
    changedTasks tasks (performSync tasks hashes pending true true).1 =
      changedTasks tasks hashes := by
  have h1 : ∀ changed : List Task, upsertStep tasks hashes changed true = hashes := by
    intro changed
    unfold upsertStep
    split <;> simp
  have h2 : ∀ hs : List (String × Fingerprint),
      deleteStep pending hs pending true = (hs, pending) := by
    intro hs
    unfold deleteStep
    split <;> simp
  have h3 : performSync tasks hashes pending true true = (hashes, pending) := by
    show deleteStep pending
      (upsertStep tasks hashes (changedTasks tasks hashes) true) pending true =
      (hashes, pending)
    rw [h1, h2]
  exact ⟨h1 _, h2 _, h3, by rw [h3]⟩

/-- Sample task used in concrete counterexamples and witnesses. -/
def exTask : Task :=
  ⟨"t1", "Draft report", none, 30, Priority.medium, Status.pending, 0, none, none, []⟩

/-- Sample sync state holding one local task and empty trackers. -/
def exState1 : SyncState := ⟨[exTask], [], [], false⟩

/-- C1 counterexample: a successful fetch that returns zero rows does not
retain the local collection, contrary to the claim; the code replaces the
collection with the empty remote set (the source comments that remote
data is used regardless of whether it is empty). -/
theorem initialFetch_zero_rows_counterexample :
    (applyInitialFetch 0 exState1 (some [])).tasks = [] ∧
    exState1.tasks ≠ [] := by decide

/-- C1 amended: on initial load, a successful fetch replaces the entire
local collection with the mapped remote rows, even when zero rows are
returned, and marks the replacement sync-originated (suppress flag set)
so it is not immediately re-pushed; only an unreachable remote store
(fetch error) leaves the local collection and all trackers unchanged. -/
theorem applyInitialFetch_success_replaces (now : Int) (s : SyncState)
    (rows : List Row) :
    applyInitialFetch now s (some rows) =
      { s with tasks := rows.map (mapRow now), suppressNextUpsert := true } ∧
    applyInitialFetch now s none = s :=
  ⟨rfl, rfl⟩

/-- C2: an inbound realtime insert or update whose mapped task is
fingerprint-identical to the existing local task with the same id leaves
the entire sync state unchanged, collection, fingerprint record, pending
set and suppress flag alike, so the next diff cycle computes exactly the
changed set it would have computed anyway and queues no push for the
event. -/
theorem realtime_echo_suppression (now : Int) (s : SyncState)
    (et : EventType) (r : Row) (existing : Task)
    (het : et ≠ EventType.DELETE)
    (hfind : s.tasks.find? (fun t => t.id == (mapRow now r).id) = some existing)
    (hh : hashTask existing = hashTask (mapRow now r)) :
    applyRealtime now s et r = s ∧
    changedTasks (applyRealtime now s et r).tasks
        (applyRealtime now s et r).lastSyncedHashes =
      changedTasks s.tasks s.lastSyncedHashes := by
  have hne : (et == EventType.DELETE) = false := by
    cases et <;> simp_all
  have hmain : applyRealtime now s et r = s := by
    unfold applyRealtime
    rw [hne]
    simp only [Bool.false_eq_true, if_false]
    rw [hfind]
    simp [hh]
  exact ⟨hmain, by rw [hmain]⟩

/-- Sample remote row fingerprint-identical to its own mapped task. -/
def exRow : Row :=
  ⟨"t1", "Draft report", none, some 45, some Priority.high, some Status.pending,
   some 1000, some "2024-06-03", some "09:00", some ["x"]⟩

/-- Sample sync state already holding the mapped form of `exRow`. -/
def exState2 : SyncState := ⟨[mapRow 0 exRow], [], [], false⟩

/-- Witness for C2: a concrete echo update event is a complete no-op. -/
theorem realtime_echo_suppression_witness :
    applyRealtime 0 exState2 EventType.UPDATE exRow = exState2 :=
  (realtime_echo_suppression 0 exState2 EventType.UPDATE exRow (mapRow 0 exRow)
    (by decide) (by decide) rfl).1

/-- Task with every listed tracked field populated, used against C7. -/
def exTaskA : Task :=
  ⟨"a", "T", some "D", 30, Priority.medium, Status.pending, 0,
   some "2024-06-03", some "09:00", ["x"]⟩

/-- Same listed tracked fields as `exTaskA`, different id. -/
def exTaskB : Task := { exTaskA with id := "b" }

/-- Same as `exTaskA` with an absent description. -/
def exTaskC : Task := { exTaskA with description := none }

/-- Same as `exTaskA` with an empty-string description. -/
def exTaskD : Task := { exTaskA with description := some "" }

/-- C7 counterexample: the fingerprint is not determined by the listed
tracked fields, because the id also enters it (two tasks agreeing on
every listed field but differing in id fingerprint differently), and
changing the tracked description field between absent and empty string
does not change the fingerprint (JS falsy collapse `t.description || ''`). -/
theorem hashTask_claim_counterexample :
    (hashTask exTaskA ≠ hashTask exTaskB ∧
      exTaskA.title = exTaskB.title ∧
      exTaskA.description = exTaskB.description ∧
      exTaskA.timeEstimate = exTaskB.timeEstimate ∧
      exTaskA.priority = exTaskB.priority ∧
      exTaskA.status = exTaskB.status ∧
      exTaskA.createdAt = exTaskB.createdAt ∧
      exTaskA.scheduledDate = exTaskB.scheduledDate ∧
      exTaskA.scheduledTime = exTaskB.scheduledTime ∧
      exTaskA.tags = exTaskB.tags) ∧
    (hashTask exTaskC = hashTask exTaskD ∧
      exTaskC.description ≠ exTaskD.description) := by
  decide

/-- C7 amended: the fingerprint is deterministic, and it is determined by
the id together with the tracked fields after the JS falsy normalization
the source applies: absent description counts as the empty string, and an
absent or empty scheduledDate or scheduledTime counts as null. Two tasks
fingerprint equal exactly when all these normalized values agree, so any
tracked-field change that survives the normalization changes the
fingerprint. -/
theorem hashTask_eq_iff_normalized_fields (t1 t2 : Task) :
    hashTask t1 = hashTask t2 ↔
      (t1.id = t2.id ∧ t1.title = t2.title ∧
       jsOr t1.description "" = jsOr t2.description "" ∧
       t1.timeEstimate = t2.timeEstimate ∧ t1.priority = t2.priority ∧
       t1.status = t2.status ∧ t1.createdAt = t2.createdAt ∧
       jsOrNull t1.scheduledDate = jsOrNull t2.scheduledDate ∧
       jsOrNull t1.scheduledTime = jsOrNull t2.scheduledTime ∧
       t1.tags = t2.tags) := by
  unfold hashTask
  simp [Fingerprint.mk.injEq]

/-- Helper: looking a date of the current week up among the seven
rendered day-column dates recovers its day offset. -/
theorem dayIndexOf_week (w : Int) (d : Nat) (hd : d < 7) :
    dayIndexOf w (w + d) = some d := by
  unfold dayIndexOf weekDates
  rw [List.findIdx?_map]
  have hcong : ((fun s : Int => s == w + d) ∘ fun i : Nat => w + i) =
      fun i : Nat => i == d := by
    funext i
    by_cases h : i = d
    · subst h
      simp
    · have h1 : w + (i : Int) ≠ w + (d : Int) := by omega
      simp only [Function.comp_apply]
      rw [beq_eq_false_iff_ne.mpr h1, beq_eq_false_iff_ne.mpr h]
  rw [hcong]
  interval_cases d <;> decide

/-- C8: converting a valid slot index to its rendered `HH:MM` string and
recomputing the slot index from that string by
`hour * 2 + (minute >= 30 ? 1 : 0)` recovers the same slot index, and
looking the date `weekStart + dayIndex` up among the week's day columns
recovers the same day index. -/
theorem slot_day_roundtrip (weekStart : Int) (dayIndex slotIndex : Nat)
    (hd : dayIndex < 7) (hs : slotIndex < 48) :
    startIndexOf (timeSlot slotIndex) = slotIndex ∧
    dayIndexOf weekStart (weekStart + dayIndex) = some dayIndex := by
  constructor
  · have h : ∀ i, i < 48 → startIndexOf (timeSlot i) = i := by decide
    exact h slotIndex hs
  · exact dayIndexOf_week weekStart dayIndex hd

/-- Witness for C8 at day index 3 and slot index 19 (09:30). -/
theorem slot_day_roundtrip_witness :
    startIndexOf (timeSlot 19) = 19 ∧
    dayIndexOf 20000 (20000 + (3 : Nat)) = some 3 :=
  slot_day_roundtrip 20000 3 19 (by decide) (by decide)

/-- Helper: the dedup tag of an event passes the `gcal:` filter. -/
theorem jsStartsWith_gcalTag (e : NormalizedGCalEvent) :
    jsStartsWith (gcalTag e) "gcal:" = true := by
  unfold jsStartsWith gcalTag
  rw [String.data_append]
  rw [ List.isPrefixOf_iff_prefix]
  exact ⟨e.id.data, rfl⟩

/-- Helper: the tag of every processed event is either already in the
ambient tag set or among the `gcal:` tags of the produced additions. -/
theorem gcalTag_mem_of_additions (fresh : Nat → String) (now : Int)
    (existingTags : List String) :
    ∀ (k : Nat) (events : List NormalizedGCalEvent),
      ∀ e ∈ events,
        gcalTag e ∈ existingTags ∨
        gcalTag e ∈ existingGcalTags (importAdditions fresh now existingTags k events) := by
  intro k events
  induction events generalizing k with
  | nil => intro e he; cases he
  | cons a es ih =>
    intro e he
    unfold importAdditions
    rcases List.mem_cons.mp he with rfl | hes
    · by_cases hmem : existingTags.contains (gcalTag e)
      · exact Or.inl (List.elem_iff.mp hmem)
      · right
        rw [if_neg hmem]
        unfold existingGcalTags
        rw [List.map_cons, List.flatten_cons]
        apply List.mem_append_left
        apply List.mem_filter.mpr
        refine ⟨?_, jsStartsWith_gcalTag e⟩
        unfold mkImportTask
        exact List.mem_cons_self _ _
    · by_cases hmem : existingTags.contains (gcalTag a)
      · rw [if_pos hmem]
        exact ih k e hes
      · rw [if_neg hmem]
        rcases ih (k + 1) e hes with h | h
        · exact Or.inl h
        · right
          unfold existingGcalTags
          rw [List.map_cons, List.flatten_cons]
          exact List.mem_append_right _ h


/-- Helper: when every event tag is already present in the ambient tag
set, the additions loop produces nothing. -/
theorem importAdditions_eq_nil (fresh : Nat → String) (now : Int)
    (existingTags : List String) :
    ∀ (k : Nat) (events : List NormalizedGCalEvent),
      (∀ e ∈ events, gcalTag e ∈ existingTags) →
      importAdditions fresh now existingTags k events = [] := by
  intro k events
  induction events generalizing k with
  | nil => intro _; rfl
  | cons a es ih =>
    intro h
    unfold importAdditions
    rw [if_pos (List.elem_iff.mpr (h a (List.mem_cons_self a es)))]
    exact ih k (fun e he => h e (List.mem_cons_of_mem a he))

/-- Helper: the `gcal:` tag collection distributes over appending. -/
theorem existingGcalTags_append (l1 l2 : List Task) :
    existingGcalTags (l1 ++ l2) = existingGcalTags l1 ++ existingGcalTags l2 := by
  unfold existingGcalTags
  rw [List.map_append, List.flatten_append]

/-- C9: importing the same event list a second time leaves the collection
unchanged: every event is either skipped because its uniquely derived
`gcal:` tag was already present, or was added by the first run carrying
that tag, so the second run produces no additions and returns the
collection as is. -/
theorem import_idempotent (fresh fresh' : Nat → String) (now now' : Int)
    (prev : List Task) (events : List NormalizedGCalEvent) :
    importGoogleCalendarForRange fresh' now'
      (importGoogleCalendarForRange fresh now prev events) events =
    importGoogleCalendarForRange fresh now prev events := by
  have hunfold : ∀ (f : Nat → String) (n : Int) (p : List Task),
      importGoogleCalendarForRange f n p events =
        if (importAdditions f n (existingGcalTags p) 0 events).isEmpty then p
        else p ++ importAdditions f n (existingGcalTags p) 0 events :=
    fun _ _ _ => rfl
  have hres : ∀ e ∈ events,
      gcalTag e ∈ existingGcalTags (importGoogleCalendarForRange fresh now prev events) := by
    intro e he
    rw [hunfold fresh now prev]
    rcases gcalTag_mem_of_additions fresh now (existingGcalTags prev) 0 events e he with h | h
    · split
      · exact h
      · rw [existingGcalTags_append]
        exact List.mem_append_left _ h
    · split
      · rename_i hnil
        rw [List.isEmpty_iff.mp hnil] at h
        cases h
      · rw [existingGcalTags_append]
        exact List.mem_append_right _ h
  have hnil : importAdditions fresh' now'
      (existingGcalTags (importGoogleCalendarForRange fresh now prev events)) 0 events = [] :=
    importAdditions_eq_nil fresh' now' _ 0 events hres
  rw [hunfold fresh' now' (importGoogleCalendarForRange fresh now prev events), hnil]
  rfl

end TaskManager
